import Mathlib

/-!
Shallow embedding of the xdyna file-protection layer.

The model follows `src/xdyna/protectfile.py` (class `ProtectFile`) and
`src/xdyna/da_meta.py` (class `_DAMetaData`).  File contents are lists of
bytes (`Content`), the relevant filesystem entries around one protected
file are gathered in `FS`, and the per-session attributes of a
`ProtectFile` object are gathered in `Session`.  Fallible filesystem
operations (Python exceptions) are modelled with `Except`.
-/

/-- File contents, as a byte list. -/
abbrev Content := List Nat

/-- A file on disk: its bytes together with a metadata fingerprint
(`os.stat` identity: inode / mtime / size as one abstract number).
`ProtectFile.__exit__` compares this fingerprint against the snapshot
taken at open time. -/
structure FileData where
  data : Content
  statId : Nat
deriving Repr, DecidableEq

/-- The messages `protectfile.py` prints, used as branch observables:
`changedDuringLock` is the `__exit__` stat-mismatch message,
`hashMismatch` the `mv_temp` digest warning, `restored` and
`savedResults` the two `restore` messages. -/
inductive Msg where
  | changedDuringLock
  | hashMismatch
  | restored
  | savedResults
deriving Repr, DecidableEq

/-- The filesystem entries relevant to one protected file `F`:
the target `F` itself, the sentinel `F.lock` (presence only), the
staging copy in the process temp dir, the sibling `F.backup`, the
salvage file `F__<timestamp>.result` (name and content), and the log of
printed messages. -/
structure FS where
  target : Option FileData
  lock : Bool
  temp : Option Content
  backup : Option Content
  result : Option (String × Content)
  log : List Msg
deriving Repr, DecidableEq

/-- Python exceptions raised by the modelled code paths. -/
inductive PyErr where
  | fileNotFound
  | fileExists
  | attrError
  | invalidMode
deriving Repr, DecidableEq

/-- The attributes of a `ProtectFile` object that the close protocol
reads: `_readonly`, `_exists`, `_do_backup`, `_keep_backup`,
`_check_hash`, whether `_backup` is a `Path` (as opposed to `None`),
the `_fstat` snapshot, and the target's base name. -/
structure Session where
  readonly : Bool
  preExists : Bool
  do_backup : Bool
  keep_backup : Bool
  check_hash : Bool
  backupSet : Bool
  fstat : Nat
  fileName : String
deriving Repr, DecidableEq

/-- `get_hash` streams a file through blake2b.  The digest is modelled
injectively by the content itself: two files have equal digests exactly
when their bytes are equal, which is the property the code relies on. -/
def get_hash (c : Content) : Content := c

/-- `ProtectFile.mv_temp` with an explicit `destination` (only called
from `restore` with the salvage path): `shutil.copy2(self._temp,
destination)` followed by `self._temp.unlink()`.  `copy2` raises if the
source is missing; `unlink` raises if the file is already gone. -/
def mv_temp_dest (s : Session) (name : String) (fs : FS) : Except PyErr FS :=
  if s.readonly then .ok fs
  else
    match fs.temp with
    | none => .error .fileNotFound
    | some c =>
      let fs1 : FS := { fs with result := some (name, c) }
      match fs1.temp with
      | none => .error .fileNotFound
      | some _ => .ok { fs1 with temp := none }

/-- `ProtectFile.restore`: if `_do_backup`, rename `_backup` onto the
target (`AttributeError` when `_backup is None`, `FileNotFoundError`
when the backup file is gone) and print; if not read-only, move the
staging file to the salvage path `<file>__<now>.result` and print.
`now` is the ISO timestamp, `rst` the stat fingerprint the renamed
backup carries. -/
def ProtectFile.restore (s : Session) (now : String) (rst : Nat) (fs : FS) :
    Except PyErr FS := do
  let fs1 ←
    if s.do_backup then
      if s.backupSet then
        match fs.backup with
        | none => Except.error PyErr.fileNotFound
        | some b =>
            Except.ok { fs with target := some ⟨b, rst⟩, backup := none,
                                log := fs.log ++ [Msg.restored] }
      else Except.error PyErr.attrError
    else Except.ok fs
  if s.readonly then
    Except.ok fs1
  else do
    let fs2 ← mv_temp_dest s (s.fileName ++ "__" ++ now ++ ".result") fs1
    Except.ok { fs2 with log := fs2.log ++ [Msg.savedResults] }

/-- `ProtectFile.mv_temp` with `destination=None` (the commit copy):
`shutil.copy2(self._temp, self.file)`, the optional hash check which
falls through to `restore` on mismatch, then `self._temp.unlink()`.
`fault` injects a corrupted copy: when `fault = some c2` the bytes that
actually land in the target are `c2` instead of the staged bytes (a
faithful `copy2` is `fault = none`).  `st` is the stat fingerprint of
the freshly written target, `now`/`rst` are passed to `restore`. -/
def mv_temp_main (s : Session) (now : String) (st rst : Nat)
    (fault : Option Content) (fs : FS) : Except PyErr FS := do
  if s.readonly then
    Except.ok fs
  else
    match fs.temp with
    | none => Except.error PyErr.fileNotFound
    | some c => do
      let written := match fault with
        | none => c
        | some c2 => c2
      let fs1 : FS := { fs with target := some ⟨written, st⟩ }
      let fs2 ←
        if s.check_hash ∧ get_hash c ≠ get_hash written then
          ProtectFile.restore s now rst
            { fs1 with log := fs1.log ++ [Msg.hashMismatch] }
        else Except.ok fs1
      match fs2.temp with
      | none => Except.error PyErr.fileNotFound
      | some _ => Except.ok { fs2 with temp := none }

/-- `ProtectFile.release`: every cleanup sub-step first checks that the
resource still exists (`is_file`, `hasattr`), so the whole function is
total.  Deletes the staging file, the backup (only when `_do_backup`,
`_backup` is a `Path`, the file exists and `_keep_backup` is off), and
the lock sentinel. -/
def ProtectFile.release (s : Session) (fs : FS) : FS :=
  let fs1 := if fs.temp.isSome then { fs with temp := none } else fs
  let fs2 :=
    if s.do_backup ∧ s.backupSet ∧ fs1.backup.isSome ∧ ¬ s.keep_backup then
      { fs1 with backup := none }
    else fs1
  if fs2.lock then { fs2 with lock := false } else fs2

/-- `ProtectFile.__exit__`: close the handle, compare the target's
current stat against the `_fstat` snapshot (short-circuiting on
`_exists`; `stat()` raises if the target is gone), then either
`restore` (mismatch) or `mv_temp` (match), and finally `release`. -/
def pfExit (s : Session) (now : String) (st rst : Nat)
    (fault : Option Content) (fs : FS) : Except PyErr FS := do
  let misMatch ←
    if s.preExists then
      match fs.target with
      | none => Except.error PyErr.fileNotFound
      | some fd => Except.ok (decide (fd.statId ≠ s.fstat))
    else Except.ok false
  let fs1 ←
    if misMatch then
      ProtectFile.restore s now rst
        { fs with log := fs.log ++ [Msg.changedDuringLock] }
    else
      mv_temp_main s now st rst fault fs
  Except.ok (ProtectFile.release s fs1)

/-- Python `str.replace` for a single-character pattern: every
occurrence of `pat` is replaced by `rep`.  Used for the mode clean-up
calls `replace("+", "")`, `replace("w", "r+")`, `replace("a", "r+")`,
`replace("w", "x")`, `replace("a", "x")` in `ProtectFile.__init__`. -/
def pyReplaceChar (pat : Char) (rep : List Char) (m : List Char) : List Char :=
  m.flatMap fun ch => if ch = pat then rep else [ch]

/-- Mode rewrite for a pre-existing target:
`mode.replace("+", "").replace("w", "r+").replace("a", "r+")`. -/
def modeExisting (m : List Char) : List Char :=
  pyReplaceChar 'a' ['r', '+'] (pyReplaceChar 'w' ['r', '+'] (pyReplaceChar '+' [] m))

/-- Mode rewrite for a non-existing target:
`mode.replace("w", "x").replace("a", "x")`. -/
def modeNew (m : List Char) : List Char :=
  pyReplaceChar 'a' ['x'] (pyReplaceChar 'w' ['x'] m)

/-- The file handle `io.open` returns: the bytes visible through it,
the current position, and whether it is backed by the staging file
(`True` for write sessions, which open `self._temp`) or by the target
(read-only sessions). -/
structure Handle where
  data : Content
  pos : Nat
  onTemp : Bool
deriving Repr, DecidableEq

/-- `io.open(file, mode)` on a file holding `f` (`none` = absent):
`r` opens an existing file at position 0 without truncating, `x`
creates a new file and fails on an existing one, `w` truncates, `a`
opens at the end.  Returns the handle data and position together with
the possibly created/truncated file content. -/
def ioOpen (m : List Char) (f : Option Content) :
    Except PyErr (Content × Nat × Option Content) :=
  if 'r' ∈ m then
    match f with
    | none => .error .fileNotFound
    | some c => .ok (c, 0, some c)
  else if 'x' ∈ m then
    match f with
    | some _ => .error .fileExists
    | none => .ok ([], 0, some [])
  else if 'w' ∈ m then .ok ([], 0, some [])
  else if 'a' ∈ m then .ok (f.getD [], (f.getD []).length, some (f.getD []))
  else .error .invalidMode

/-- The keyword arguments of `ProtectFile.__init__` that the model
tracks (`wait` only affects poll latency and is omitted). -/
structure InitArgs where
  mode : List Char
  backup_during_lock : Bool
  backup : Bool
  backup_if_readonly : Bool
  check_hash : Bool
  fileName : String
deriving Repr, DecidableEq

/-- Creating the lock sentinel (`io.open(self._lock, 'x')` after the
acquire loop has won). -/
def setLock (fs : FS) : FS := { fs with lock := true }

/-- Replacing the staging file's content. -/
def setTemp (c : Option Content) (fs : FS) : FS := { fs with temp := c }

/-- `shutil.copy2(self._file, self._backup)` when a backup is made. -/
def mkBackupFS (b : Bool) (fs : FS) : FS :=
  if b then { fs with backup := fs.target.map FileData.data } else fs

/-- `shutil.copy2(self._file, self._temp)` when a staging copy is made. -/
def stageFS (b : Bool) (fs : FS) : FS :=
  if b then { fs with temp := fs.target.map FileData.data } else fs

/-- Result of `ProtectFile(...)`: either a constructed session with its
handle, or a raised exception together with the filesystem as the
failed constructor leaves it (after `__del__` has run `release` on the
partially initialised object). -/
inductive InitOutcome where
  | ok (s : Session) (h : Handle) (fs : FS)
  | err (e : PyErr) (fs : FS)
deriving Repr, DecidableEq

/-- Last step of `ProtectFile.__init__`: the result of `io.open`
becomes the session's handle (`self._fd`), backed by the staging file
for write sessions; an exception from `io.open` triggers `__del__`'s
`release` on the partially initialised object. -/
def finishInit (s : Session) (fs3 : FS) :
    Except PyErr (Content × Nat × Option Content) → InitOutcome
  | .error e => .err e (ProtectFile.release s fs3)
  | .ok (d, p, f2) =>
    if s.readonly then .ok s ⟨d, p, false⟩ fs3
    else .ok s ⟨d, p, true⟩ (setTemp f2 fs3)

/-- `ProtectFile.__init__`.  The lock sentinel is created first (the
model assumes the acquire loop has won, i.e. it describes the state
after the exclusive create succeeded); then the mode is validated
(`FileNotFoundError` / `FileExistsError`) or rewritten; the backup and
the staging copy are made; finally `io.open` produces the handle.  On
any raise, CPython drops the half-built object and `__del__` runs
`release`, which removes whichever of lock/temp/backup already exist;
the returned `FS` reflects that.  `st0` is the stat fingerprint the
target has at open time (captured into `_fstat`). -/
def pfInit (a : InitArgs) (fs0 : FS) : InitOutcome :=
  let fsL : FS := setLock fs0
  let ex := fsL.target.isSome
  let db0 : Bool := if a.backup then true else a.backup_during_lock
  if 'r' ∈ a.mode ∧ ex = false then
    .err .fileNotFound (ProtectFile.release
      ⟨false, ex, db0, a.backup, a.check_hash, false, 0, a.fileName⟩ fsL)
  else if 'r' ∉ a.mode ∧ 'x' ∈ a.mode ∧ ex = true then
    .err .fileExists (ProtectFile.release
      ⟨false, ex, db0, a.backup, a.check_hash, false, 0, a.fileName⟩ fsL)
  else
    let ro := 'r' ∈ a.mode ∧ '+' ∉ a.mode
    let effMode :=
      if 'r' ∈ a.mode ∨ 'x' ∈ a.mode then a.mode
      else if ex then modeExisting a.mode
      else modeNew a.mode
    let db : Bool := if ro ∧ ¬ a.backup_if_readonly then false else db0
    let mkBackup : Bool := db ∧ ex
    let fs2 : FS := mkBackupFS mkBackup fsL
    let fstat := match fsL.target with
      | some fd => fd.statId
      | none => 0
    let s : Session := ⟨ro, ex, db, a.backup, a.check_hash, mkBackup, fstat, a.fileName⟩
    let fs3 : FS := stageFS (decide (¬ ro ∧ ex = true)) fs2
    let openFile := if ro then fs3.target.map FileData.data else fs3.temp
    finishInit s fs3 (ioOpen effMode openFile)

/-- A `write` on the handle: bytes overwrite in place at the current
position (no truncation); the position advances past what was written.
The callers below only write at positions within the file. -/
def hwrite (h : Handle) (bs : Content) : Handle :=
  { h with data := h.data.take h.pos ++ bs ++ h.data.drop (h.pos + bs.length),
           pos := h.pos + bs.length }

/-- `truncate(n)` on the handle: cut the data to `n` bytes (the
position is unchanged, as in Python). -/
def htruncate (h : Handle) (n : Nat) : Handle :=
  { h with data := h.data.take n }

/-- `seek(n)` on the handle. -/
def hseek (h : Handle) (n : Nat) : Handle :=
  { h with pos := n }

/-- Flushing a handle write to disk during a session: the bytes land in
the file backing the handle — the staging file for write sessions, the
target itself only for handles opened directly on it.  Writing to a
file bumps its stat fingerprint. -/
def sessionWrite (h : Handle) (bs : Content) (fs : FS) : Handle × FS :=
  let h2 := hwrite h bs
  (h2,
    if h.onTemp then { fs with temp := some h2.data }
    else { fs with target := fs.target.map fun fd => ⟨h2.data, fd.statId + 1⟩ })

/-- Python dict keys occurring in the `submissions` map of the meta
file: after `json.load` every key is a decimal string (abstracted by
the number it spells); `new_submission_id` inserts an `int` key.  In
Python `3 != "3"`, so the two kinds never compare equal. -/
inductive PyKey where
  | jstr (n : Nat)
  | jint (n : Nat)
deriving Repr, DecidableEq

/-- Python dict assignment `m[k] = v` on an insertion-ordered dict:
update in place when the key is present, append otherwise. -/
def dictSet {α : Type} (m : List (PyKey × α)) (k : PyKey) (v : α) :
    List (PyKey × α) :=
  if k ∈ m.map Prod.fst then
    m.map fun p => if p.1 = k then (k, v) else p
  else m ++ [(k, v)]

/-- `json.load` turns the serialized submissions map (decimal keys,
values with `none` for JSON null) into a dict with string keys. -/
def loadSubs {β : Type} (l : List (Nat × Option β)) : List (PyKey × Option β) :=
  l.map fun p => (PyKey.jstr p.1, p.2)

/-- `json.dump` renders both the string key `"n"` and the int key `n`
as the same decimal text. -/
def dumpKey : PyKey → Nat
  | .jstr n => n
  | .jint n => n

/-- Serialization of the submissions dict by `json.dump`. -/
def dumpSubs {β : Type} (l : List (PyKey × Option β)) : List (Nat × Option β) :=
  l.map fun p => (dumpKey p.1, p.2)

/-- The meta file as JSON: the `submissions` map plus all other fields
(opaque here, `new_submission_id` does not touch them). -/
structure MetaJson (α β : Type) where
  fields : α
  submissions : List (Nat × Option β)
deriving DecidableEq

/-- `_DAMetaData.new_submission_id`: load the meta JSON, take
`new_id = len(meta['submissions'].keys())`, insert
`meta['submissions'][new_id] = None` (an `int` key into a dict whose
loaded keys are strings), and return `new_id` with the meta object that
gets dumped back. -/
def new_submission_id {α β : Type} (m : MetaJson α β) : Nat × MetaJson α β :=
  let subs := loadSubs m.submissions
  let new_id := subs.length
  let subs2 := dictSet subs (PyKey.jint new_id) none
  (new_id, { m with submissions := dumpSubs subs2 })

/-- The file rewrite inside `new_submission_id`: after `json.load` the
handle sits at the end of the staged copy; the code then runs
`pf.truncate(0)`, `pf.seek(0)`, `json.dump(meta, pf)`.  `ser` is the
JSON serializer.  Returns the new id and the bytes of the staged file
afterwards. -/
def submitWrite {α β : Type} (ser : MetaJson α β → Content) (m : MetaJson α β) :
    Nat × Content :=
  let h0 : Handle := ⟨ser m, (ser m).length, true⟩
  let r := new_submission_id m
  let h1 := hseek (htruncate h0 0) 0
  let h2 := hwrite h1 (ser r.2)
  (r.1, h2.data)

/-- Observable side effects of one `_DAMetaData._set_property` call:
whether the in-memory field was reassigned, how many times the meta
file was read (`_check_not_changed`) and rewritten (`_store`), and how
many `ProtectFile` locks were taken (one per such call). -/
structure SetPropEffects where
  assigned : Bool
  metaReads : Nat
  metaWrites : Nat
  locksTaken : Nat
deriving Repr, DecidableEq

/-- `_DAMetaData._set_property(prop, val)`: only when the new value
differs from the current one does it assign the field, run
`_check_not_changed` (one locked read of the meta file) and `_store`
(one locked rewrite); otherwise nothing at all happens. -/
def set_property {α : Type} [DecidableEq α] (cur val : α) : α × SetPropEffects :=
  if cur ≠ val then (val, ⟨true, 1, 1, 2⟩)
  else (cur, ⟨false, 0, 0, 0⟩)

/-- Projections on `InitOutcome`, to state properties of `pfInit`
results without existential quantifiers. -/
def InitOutcome.isOk : InitOutcome → Bool
  | .ok _ _ _ => true
  | .err _ _ => false

/-- The filesystem state an `InitOutcome` carries. -/
def InitOutcome.fsOf : InitOutcome → FS
  | .ok _ _ fs => fs
  | .err _ fs => fs

/-- The session of a successful `InitOutcome`. -/
def InitOutcome.sessionOf : InitOutcome → Option Session
  | .ok s _ _ => some s
  | .err _ _ => none

/-- The handle of a successful `InitOutcome`. -/
def InitOutcome.handleOf : InitOutcome → Option Handle
  | .ok _ h _ => some h
  | .err _ _ => none

/-- A close step rolled back exactly when `restore` ran, observable
through the messages it prints. -/
def rolledBack (fs : FS) : Prop :=
  Msg.restored ∈ fs.log ∨ Msg.savedResults ∈ fs.log

/-- C6: calling `release` a second time is a no-op on filesystem state —
every cleanup sub-step checks that its resource still exists, so
releasing an already-released session changes nothing and raises
nothing (the function is total). -/
theorem C6_release_idempotent (s : Session) (fs : FS) :
    ProtectFile.release s (ProtectFile.release s fs) = ProtectFile.release s fs := by
  rcases s with ⟨ro, pe, db, kb, ch, bset, fst, fn⟩
  rcases fs with ⟨t, l, tmp, b, r, lg⟩
  cases db <;> cases kb <;> cases bset <;>
    rcases tmp with _ | c <;> rcases b with _ | bc <;> cases l <;>
    simp [ProtectFile.release]

/-- Serializing a freshly loaded submissions map gives back the
original serialization: string keys round-trip through `json.dump`. -/
theorem dumpSubs_loadSubs {β : Type} (l : List (Nat × Option β)) :
    dumpSubs (loadSubs l) = l := by
  induction l with
  | nil => rfl
  | cons hd tl ih =>
      simp [dumpSubs, loadSubs, dumpKey] at ih ⊢
      exact ih

/-- C7: `new_submission_id` on a meta file whose submissions map has
`n` entries returns `n` and extends the map by exactly the one new key
`n` mapped to JSON null, leaving every pre-existing key, its value, and
all other meta fields unchanged. -/
theorem C7_new_submission_id {α β : Type} (m : MetaJson α β) :
    new_submission_id m =
      (m.submissions.length,
       (⟨m.fields, m.submissions ++ [(m.submissions.length, none)]⟩ : MetaJson α β)) := by
  have hnot : PyKey.jint (loadSubs m.submissions).length ∉
      (loadSubs (β := β) m.submissions).map Prod.fst := by
    simp [loadSubs]
  rcases m with ⟨f, subs⟩
  have hlen : (loadSubs (β := β) subs).length = subs.length := by simp [loadSubs]
  simp only [new_submission_id, dictSet, if_neg hnot, Prod.mk.injEq]
  refine ⟨hlen, ?_⟩
  have hdump : dumpSubs (loadSubs subs ++ [(PyKey.jint (loadSubs subs).length, (none : Option β))])
      = subs ++ [(subs.length, none)] := by
    calc dumpSubs (loadSubs subs ++ [(PyKey.jint (loadSubs subs).length, (none : Option β))])
        = dumpSubs (loadSubs subs) ++
            dumpSubs [(PyKey.jint (loadSubs subs).length, (none : Option β))] := by
          simp [dumpSubs]
      _ = subs ++ [(subs.length, none)] := by
          rw [dumpSubs_loadSubs]
          simp [dumpSubs, dumpKey, hlen]
  simp only [MetaJson.mk.injEq]
  exact ⟨trivial, hdump⟩

/-- C10: a metadata property setter invoked with a value equal to the
current one does nothing: the field keeps its value and no disk read,
disk write or lock happens. -/
theorem C10_set_property_noop {α : Type} [DecidableEq α] (cur val : α)
    (h : cur = val) :
    set_property cur val = (cur, ⟨false, 0, 0, 0⟩) := by
  subst h
  simp [set_property]

/-- Witness for C10 at a concrete input. -/
theorem C10_set_property_noop_witness :
    set_property (3 : Nat) 3 = (3, ⟨false, 0, 0, 0⟩) :=
  C10_set_property_noop 3 3 rfl

/-- C2: a mode/pre-existence mismatch at open time (a mode containing
`r` on an absent target — including plain read-only — or a mode
containing `x` on a present target) makes the constructor raise the
matching error, and the lock sentinel does not remain: the filesystem
is left exactly as it was found. -/
theorem C2_open_validation (a : InitArgs) (fs0 : FS)
    (hfree : fs0.lock = false) (htmp : fs0.temp = none)
    (h : ('r' ∈ a.mode ∧ fs0.target = none) ∨
         ('r' ∉ a.mode ∧ 'x' ∈ a.mode ∧ fs0.target.isSome = true)) :
    pfInit a fs0 =
      .err (if 'r' ∈ a.mode then PyErr.fileNotFound else PyErr.fileExists) fs0 := by
  rcases fs0 with ⟨t, l, tmp, b, r, lg⟩
  simp only at hfree htmp
  subst hfree
  subst htmp
  rcases h with ⟨hr, htgt⟩ | ⟨hr, hx, htgt⟩
  · simp only at htgt
    subst htgt
    simp [pfInit, ProtectFile.release, setLock, hr]
  · rcases t with _ | fd
    · simp at htgt
    · simp [pfInit, ProtectFile.release, setLock, hr, hx]

/-- Witness for C2: opening mode `r` on an absent file. -/
theorem C2_open_validation_witness :
    pfInit ⟨['r'], true, false, false, true, "f"⟩ ⟨none, false, none, none, none, []⟩
      = .err (if 'r' ∈ (['r'] : List Char) then PyErr.fileNotFound else PyErr.fileExists)
          ⟨none, false, none, none, none, []⟩ :=
  C2_open_validation _ _ rfl rfl (Or.inl ⟨by decide, rfl⟩)

/-- Membership after a single-character Python `replace`: a character
is in the result iff it comes from the replacement (the pattern
occurred) or was already there and is not the pattern. -/
theorem mem_pyReplaceChar {x pat : Char} {rep m : List Char} :
    x ∈ pyReplaceChar pat rep m ↔ (pat ∈ m ∧ x ∈ rep) ∨ (x ∈ m ∧ x ≠ pat) := by
  simp only [pyReplaceChar, List.mem_flatMap]
  constructor
  · rintro ⟨ch, hch, hx⟩
    by_cases h : ch = pat
    · subst h
      rw [if_pos rfl] at hx
      exact Or.inl ⟨hch, hx⟩
    · rw [if_neg h] at hx
      simp at hx
      subst hx
      exact Or.inr ⟨hch, h⟩
  · rintro (⟨hpat, hx⟩ | ⟨hm, hne⟩)
    · exact ⟨pat, hpat, by rw [if_pos rfl]; exact hx⟩
    · exact ⟨x, hm, by rw [if_neg hne]; simp⟩

/-- A mode containing `w` or `a` is rewritten (for an existing target)
to one containing `r`. -/
theorem modeExisting_mem_r {m : List Char} (h : 'w' ∈ m ∨ 'a' ∈ m) :
    'r' ∈ modeExisting m := by
  unfold modeExisting
  rcases h with hw | ha
  · have h1 : 'w' ∈ pyReplaceChar '+' [] m :=
      mem_pyReplaceChar.mpr (Or.inr ⟨hw, by decide⟩)
    have h2 : 'r' ∈ pyReplaceChar 'w' ['r', '+'] (pyReplaceChar '+' [] m) :=
      mem_pyReplaceChar.mpr (Or.inl ⟨h1, by decide⟩)
    exact mem_pyReplaceChar.mpr (Or.inr ⟨h2, by decide⟩)
  · have h1 : 'a' ∈ pyReplaceChar '+' [] m :=
      mem_pyReplaceChar.mpr (Or.inr ⟨ha, by decide⟩)
    have h2 : 'a' ∈ pyReplaceChar 'w' ['r', '+'] (pyReplaceChar '+' [] m) :=
      mem_pyReplaceChar.mpr (Or.inr ⟨h1, by decide⟩)
    exact mem_pyReplaceChar.mpr (Or.inl ⟨h2, by decide⟩)

/-- A mode containing `w` or `a` is rewritten (for an existing target)
to one containing `+`. -/
theorem modeExisting_mem_plus {m : List Char} (h : 'w' ∈ m ∨ 'a' ∈ m) :
    '+' ∈ modeExisting m := by
  unfold modeExisting
  rcases h with hw | ha
  · have h1 : 'w' ∈ pyReplaceChar '+' [] m :=
      mem_pyReplaceChar.mpr (Or.inr ⟨hw, by decide⟩)
    have h2 : '+' ∈ pyReplaceChar 'w' ['r', '+'] (pyReplaceChar '+' [] m) :=
      mem_pyReplaceChar.mpr (Or.inl ⟨h1, by decide⟩)
    exact mem_pyReplaceChar.mpr (Or.inr ⟨h2, by decide⟩)
  · have h1 : 'a' ∈ pyReplaceChar '+' [] m :=
      mem_pyReplaceChar.mpr (Or.inr ⟨ha, by decide⟩)
    have h2 : 'a' ∈ pyReplaceChar 'w' ['r', '+'] (pyReplaceChar '+' [] m) :=
      mem_pyReplaceChar.mpr (Or.inr ⟨h1, by decide⟩)
    exact mem_pyReplaceChar.mpr (Or.inl ⟨h2, by decide⟩)

/-- The rewritten mode for an existing target never contains `w`. -/
theorem modeExisting_not_w {m : List Char} : 'w' ∉ modeExisting m := by
  unfold modeExisting
  intro h
  rcases mem_pyReplaceChar.mp h with ⟨_, hw⟩ | ⟨h2, _⟩
  · exact absurd hw (by decide)
  · rcases mem_pyReplaceChar.mp h2 with ⟨_, hw⟩ | ⟨_, hne⟩
    · exact absurd hw (by decide)
    · exact hne rfl

/-- The rewritten mode for an existing target never contains `a`. -/
theorem modeExisting_not_a {m : List Char} : 'a' ∉ modeExisting m := by
  unfold modeExisting
  intro h
  rcases mem_pyReplaceChar.mp h with ⟨_, ha⟩ | ⟨_, hne⟩
  · exact absurd ha (by decide)
  · exact hne rfl

/-- C8: opening an existing target with a `w`/`a` mode does not
truncate: the mode is rewritten to an `r+`-style mode (it gains `r` and
`+` and loses `w` and `a`), the handle is the staging copy of the full
previous content at position 0, and a write of `bs` overwrites in place
so the old content past `bs` survives. -/
theorem C8_no_truncation (a : InitArgs) (fs0 : FS) (c : Content) (st0 : Nat)
    (bs : Content)
    (hmode : 'w' ∈ a.mode ∨ 'a' ∈ a.mode)
    (hr : 'r' ∉ a.mode) (hx : 'x' ∉ a.mode)
    (htgt : fs0.target = some ⟨c, st0⟩) :
    (pfInit a fs0).handleOf = some ⟨c, 0, true⟩ ∧
    'r' ∈ modeExisting a.mode ∧ '+' ∈ modeExisting a.mode ∧
    'w' ∉ modeExisting a.mode ∧ 'a' ∉ modeExisting a.mode ∧
    (hwrite ⟨c, 0, true⟩ bs).data = bs ++ c.drop bs.length := by
  have hrm := modeExisting_mem_r hmode
  refine ⟨?_, hrm, modeExisting_mem_plus hmode, modeExisting_not_w,
    modeExisting_not_a, ?_⟩
  · by_cases hb : a.backup = true ∨ a.backup_during_lock = true
    · simp [pfInit, ioOpen, finishInit, InitOutcome.handleOf, setLock, setTemp, mkBackupFS, stageFS, hr, hx, htgt, hrm, hb]
    · simp [pfInit, ioOpen, finishInit, InitOutcome.handleOf, setLock, setTemp, mkBackupFS, stageFS, hr, hx, htgt, hrm, hb]
  · simp [hwrite]

/-- Witness for C8: mode `w` on an existing file `[1,2,3]`; writing
`[9]` leaves `[9,2,3]`. -/
theorem C8_no_truncation_witness :
    (pfInit ⟨['w'], true, false, false, true, "f"⟩
        ⟨some ⟨[1, 2, 3], 7⟩, false, none, none, none, []⟩).handleOf
      = some ⟨[1, 2, 3], 0, true⟩ ∧
    'r' ∈ modeExisting ['w'] ∧ '+' ∈ modeExisting ['w'] ∧
    'w' ∉ modeExisting ['w'] ∧ 'a' ∉ modeExisting ['w'] ∧
    (hwrite ⟨[1, 2, 3], 0, true⟩ [9]).data
      = [9] ++ ([1, 2, 3] : Content).drop ([9] : Content).length :=
  C8_no_truncation _ _ _ _ _ (Or.inl (by decide)) (by decide) (by decide) rfl

/-- C9: `backup=True` (retention) forces the backup mechanism on even
when `backup_during_lock=False` was passed, so a pre-existing target
opened in any non-read-only mode gets a backup snapshot. -/
theorem C9_backup_forced (a : InitArgs) (fs0 : FS) (c : Content) (st0 : Nat)
    (hkeep : a.backup = true)
    (htgt : fs0.target = some ⟨c, st0⟩)
    (hplus : 'r' ∈ a.mode → '+' ∈ a.mode)
    (hx : 'x' ∉ a.mode)
    (hm : 'r' ∈ a.mode ∨ 'w' ∈ a.mode ∨ 'a' ∈ a.mode) :
    (pfInit a fs0).isOk = true ∧
    (pfInit a fs0).sessionOf.map Session.do_backup = some true ∧
    (pfInit a fs0).sessionOf.map Session.keep_backup = some true ∧
    (pfInit a fs0).fsOf.backup = some c := by
  by_cases hr : 'r' ∈ a.mode
  · have hp := hplus hr
    simp [pfInit, ioOpen, finishInit, InitOutcome.isOk, InitOutcome.sessionOf, InitOutcome.fsOf,
      setLock, setTemp, mkBackupFS, stageFS, hkeep, htgt, hr, hp, hx]
  · have hwa : 'w' ∈ a.mode ∨ 'a' ∈ a.mode := by tauto
    have hrm := modeExisting_mem_r hwa
    simp [pfInit, ioOpen, finishInit, InitOutcome.isOk, InitOutcome.sessionOf, InitOutcome.fsOf,
      setLock, setTemp, mkBackupFS, stageFS, hkeep, htgt, hr, hx, hrm]

/-- Witness for C9: `backup=True` with `backup_during_lock=False`. -/
theorem C9_backup_forced_witness :
    (pfInit ⟨['w'], false, true, false, true, "f"⟩
        ⟨some ⟨[4, 5], 3⟩, false, none, none, none, []⟩).isOk = true ∧
    (pfInit ⟨['w'], false, true, false, true, "f"⟩
        ⟨some ⟨[4, 5], 3⟩, false, none, none, none, []⟩).sessionOf.map Session.do_backup
      = some true ∧
    (pfInit ⟨['w'], false, true, false, true, "f"⟩
        ⟨some ⟨[4, 5], 3⟩, false, none, none, none, []⟩).sessionOf.map Session.keep_backup
      = some true ∧
    (pfInit ⟨['w'], false, true, false, true, "f"⟩
        ⟨some ⟨[4, 5], 3⟩, false, none, none, none, []⟩).fsOf.backup = some [4, 5] :=
  C9_backup_forced _ _ _ _ rfl rfl (by decide) (by decide) (Or.inr (Or.inl (by decide)))

/-- `release` never touches the protected target file. -/
theorem release_target (s : Session) (fs : FS) :
    (ProtectFile.release s fs).target = fs.target := by
  simp only [ProtectFile.release]
  split_ifs <;> rfl

/-- Creating the lock sentinel never touches the target. -/
theorem setLock_target (fs : FS) : (setLock fs).target = fs.target := rfl

/-- Writing the staging file never touches the target. -/
theorem setTemp_target (c : Option Content) (fs : FS) :
    (setTemp c fs).target = fs.target := rfl

/-- Making the backup copy never touches the target. -/
theorem mkBackupFS_target (b : Bool) (fs : FS) :
    (mkBackupFS b fs).target = fs.target := by
  unfold mkBackupFS
  split_ifs <;> rfl

/-- Making the staging copy never touches the target. -/
theorem stageFS_target (b : Bool) (fs : FS) :
    (stageFS b fs).target = fs.target := by
  unfold stageFS
  split_ifs <;> rfl

/-- The final `io.open` step of the constructor never touches the
target. -/
theorem finishInit_fsOf_target (s : Session) (fs3 : FS)
    (r : Except PyErr (Content × Nat × Option Content)) :
    (finishInit s fs3 r).fsOf.target = fs3.target := by
  rcases r with e | ⟨d, p, f2⟩
  · simp [finishInit, InitOutcome.fsOf, release_target]
  · by_cases hro : s.readonly = true <;>
      simp [finishInit, InitOutcome.fsOf, setTemp_target, hro]

/-- A successful `finishInit` returns the session it was given, and a
handle backed by the staging file exactly when the session is not
read-only. -/
theorem finishInit_onTemp (s : Session) (fs3 : FS)
    (r : Except PyErr (Content × Nat × Option Content))
    (s1 : Session) (h1 : Handle) (fs1 : FS)
    (hok : finishInit s fs3 r = .ok s1 h1 fs1) :
    s1 = s ∧ h1.onTemp = !s.readonly := by
  rcases r with e | ⟨d, p, f2⟩
  · simp [finishInit] at hok
  · by_cases hro : s.readonly = true <;>
      simp [finishInit, hro] at hok <;>
      simp [← hok.1, ← hok.2.1, hro]

/-- Opening a `ProtectFile` never changes the target file, on any path
(success or raise). -/
theorem pfInit_target_frame (a : InitArgs) (fs0 : FS) :
    (pfInit a fs0).fsOf.target = fs0.target := by
  unfold pfInit
  dsimp only
  split
  · simp [InitOutcome.fsOf, release_target, setLock_target]
  · split
    · simp [InitOutcome.fsOf, release_target, setLock_target]
    · rw [finishInit_fsOf_target, stageFS_target, mkBackupFS_target, setLock_target]

/-- The handle of a successfully opened `ProtectFile` is backed by the
staging file exactly when the session is not read-only. -/
theorem pfInit_handle_onTemp (a : InitArgs) (fs0 : FS) (s : Session)
    (h : Handle) (fs1 : FS) (hok : pfInit a fs0 = .ok s h fs1) :
    h.onTemp = !s.readonly := by
  unfold pfInit at hok
  dsimp only at hok
  split at hok
  · exact InitOutcome.noConfusion hok
  · split at hok
    · exact InitOutcome.noConfusion hok
    · obtain ⟨hs, hh⟩ := finishInit_onTemp _ _ _ _ _ _ hok
      rw [hs]
      exact hh

/-- C4: a session opened read-write hands back a handle on the staging
copy, the open itself leaves the target untouched, and a flushed write
through a staging-backed handle lands in the staging file while the
target stays exactly as it was — nothing mutates the target before the
commit step. -/
theorem C4_staging_only (a : InitArgs) (fs0 : FS) (s : Session) (h : Handle)
    (fs1 : FS) (h2 : Handle) (bs : Content) (fs2 : FS)
    (hok : pfInit a fs0 = .ok s h fs1)
    (hro : s.readonly = false)
    (hT : h2.onTemp = true) :
    h.onTemp = true ∧ fs1.target = fs0.target ∧
    (sessionWrite h2 bs fs2).2.target = fs2.target ∧
    (sessionWrite h2 bs fs2).2.temp = some (hwrite h2 bs).data := by
  have hT1 := pfInit_handle_onTemp a fs0 s h fs1 hok
  have hF := pfInit_target_frame a fs0
  rw [hok] at hF
  simp only [InitOutcome.fsOf] at hF
  refine ⟨by rw [hT1, hro]; rfl, hF, ?_, ?_⟩
  · simp [sessionWrite, hT]
  · simp [sessionWrite, hT]

/-- Witness for C4: a concrete `r+` session on an existing file. -/
theorem C4_staging_only_witness :
    (⟨[1], 0, true⟩ : Handle).onTemp = true ∧
    (⟨some ⟨[1], 4⟩, true, some [1], some [1], none, []⟩ : FS).target
      = (⟨some ⟨[1], 4⟩, false, none, none, none, []⟩ : FS).target ∧
    (sessionWrite ⟨[5], 0, true⟩ [7]
        ⟨some ⟨[2], 9⟩, true, some [5], none, none, []⟩).2.target
      = (⟨some ⟨[2], 9⟩, true, some [5], none, none, []⟩ : FS).target ∧
    (sessionWrite ⟨[5], 0, true⟩ [7]
        ⟨some ⟨[2], 9⟩, true, some [5], none, none, []⟩).2.temp
      = some (hwrite ⟨[5], 0, true⟩ [7]).data :=
  C4_staging_only ⟨['r', '+'], true, false, false, true, "f"⟩
    ⟨some ⟨[1], 4⟩, false, none, none, none, []⟩
    ⟨false, true, true, false, true, true, 4, "f"⟩
    ⟨[1], 0, true⟩
    ⟨some ⟨[1], 4⟩, true, some [1], some [1], none, []⟩
    ⟨[5], 0, true⟩ [7] ⟨some ⟨[2], 9⟩, true, some [5], none, none, []⟩
    (by decide) rfl rfl

/-- `release` never changes the printed log. -/
theorem release_log (s : Session) (fs : FS) :
    (ProtectFile.release s fs).log = fs.log := by
  simp only [ProtectFile.release]
  split_ifs <;> rfl

/-- `release` never touches the salvage file. -/
theorem release_result (s : Session) (fs : FS) :
    (ProtectFile.release s fs).result = fs.result := by
  simp only [ProtectFile.release]
  split_ifs <;> rfl

/-- After `release` the staging file is always gone. -/
theorem release_temp (s : Session) (fs : FS) :
    (ProtectFile.release s fs).temp = none := by
  rcases fs with ⟨t, l, tmp, b, r, lg⟩
  rcases tmp with _ | c <;>
    simp only [ProtectFile.release] <;> split_ifs <;> simp_all

/-- C1: a write session on a pre-existing target that reaches
`__exit__` (with a faithful commit copy) always closes successfully
with exactly one of the two outcomes: if the target's stat still equals
the open-time snapshot, the staged bytes are committed over the target
and no rollback happens; if the stat differs, a rollback is performed —
and in either case the target file is still present afterwards. -/
theorem C1_commit_xor_rollback (s : Session) (now : String) (st rst : Nat)
    (fs : FS) (t c : Content) (st0 : Nat)
    (hex : s.preExists = true) (hro : s.readonly = false)
    (htgt : fs.target = some ⟨t, st0⟩) (htemp : fs.temp = some c)
    (hlog : fs.log = [])
    (hb : s.do_backup = true → s.backupSet = true ∧ fs.backup.isSome = true) :
    ∃ fs1, pfExit s now st rst none fs = .ok fs1 ∧
      fs1.target.isSome = true ∧
      (rolledBack fs1 ↔ st0 ≠ s.fstat) ∧
      (st0 = s.fstat → fs1.target = some ⟨c, st⟩) := by
  rcases fs with ⟨tgt, l, tmp, bk, r, lg⟩
  dsimp only at htgt htemp hlog
  subst htgt
  subst htemp
  subst hlog
  by_cases hstat : st0 = s.fstat
  · have hrun : pfExit s now st rst none ⟨some ⟨t, st0⟩, l, some c, bk, r, []⟩
        = .ok (ProtectFile.release s ⟨some ⟨c, st⟩, l, none, bk, r, []⟩) := by
      simp [pfExit, mv_temp_main, hro, hex, hstat, get_hash, Bind.bind, Except.bind]
    refine ⟨_, hrun, ?_, ?_, ?_⟩
    · rw [release_target]
      simp
    · simp [rolledBack, release_log, hstat]
    · intro _
      rw [release_target]
  · by_cases hdb : s.do_backup = true
    · obtain ⟨hbs, hbk⟩ := hb hdb
      dsimp only at hbk
      rcases bk with _ | bv
      · simp at hbk
      · have hrun : pfExit s now st rst none ⟨some ⟨t, st0⟩, l, some c, some bv, r, []⟩
            = .ok (ProtectFile.release s ⟨some ⟨bv, rst⟩, l, none, none,
                some (s.fileName ++ "__" ++ now ++ ".result", c),
                [Msg.changedDuringLock, Msg.restored, Msg.savedResults]⟩) := by
          simp [pfExit, ProtectFile.restore, mv_temp_dest, hro, hex, hstat, hdb, hbs,
            Bind.bind, Except.bind]
        refine ⟨_, hrun, ?_, ?_, ?_⟩
        · rw [release_target]
          simp
        · simp [rolledBack, release_log, hstat]
        · intro hcon
          exact absurd hcon hstat
    · have hdbf : s.do_backup = false := by simpa using hdb
      have hrun : pfExit s now st rst none ⟨some ⟨t, st0⟩, l, some c, bk, r, []⟩
          = .ok (ProtectFile.release s ⟨some ⟨t, st0⟩, l, none, bk,
              some (s.fileName ++ "__" ++ now ++ ".result", c),
              [Msg.changedDuringLock, Msg.savedResults]⟩) := by
        simp [pfExit, ProtectFile.restore, mv_temp_dest, hro, hex, hstat, hdbf,
          Bind.bind, Except.bind]
      refine ⟨_, hrun, ?_, ?_, ?_⟩
      · rw [release_target]
        simp
      · simp [rolledBack, release_log, hstat]
      · intro hcon
        exact absurd hcon hstat

/-- Witness for C1: a commit on an unchanged target. -/
theorem C1_commit_xor_rollback_witness :
    ∃ fs1, pfExit ⟨false, true, true, false, true, true, 5, "data.json"⟩ "T" 10 11 none
        ⟨some ⟨[1, 2, 3], 5⟩, true, some [9, 9], some [1, 2, 3], none, []⟩ = .ok fs1 ∧
      fs1.target.isSome = true ∧
      (rolledBack fs1 ↔ (5 : Nat) ≠
        (⟨false, true, true, false, true, true, 5, "data.json"⟩ : Session).fstat) ∧
      ((5 : Nat) = (⟨false, true, true, false, true, true, 5, "data.json"⟩ : Session).fstat →
        fs1.target = some ⟨[9, 9], 10⟩) :=
  C1_commit_xor_rollback _ "T" 10 11 _ [1, 2, 3] [9, 9] 5 rfl rfl rfl rfl rfl
    (fun _ => ⟨rfl, rfl⟩)

/-- C5: when the close step takes the rollback branch (stat mismatch)
in a write session with a backup present, the backup content ends up
back on the target path, the staged bytes are preserved in the salvage
file `<file>__<timestamp>.result`, and the staging file is removed. -/
theorem C5_rollback_salvage (s : Session) (now : String) (st rst : Nat)
    (fs : FS) (t b c : Content) (st0 : Nat)
    (hex : s.preExists = true) (hro : s.readonly = false)
    (htgt : fs.target = some ⟨t, st0⟩) (hmm : st0 ≠ s.fstat)
    (hdb : s.do_backup = true) (hbs : s.backupSet = true)
    (hbk : fs.backup = some b) (htemp : fs.temp = some c) :
    ∃ fs1, pfExit s now st rst none fs = .ok fs1 ∧
      fs1.target = some ⟨b, rst⟩ ∧
      fs1.result = some (s.fileName ++ "__" ++ now ++ ".result", c) ∧
      fs1.temp = none := by
  rcases fs with ⟨tgt, l, tmp, bk, r, lg⟩
  dsimp only at htgt htemp hbk
  subst htgt
  subst htemp
  subst hbk
  have hrun : pfExit s now st rst none ⟨some ⟨t, st0⟩, l, some c, some b, r, lg⟩
      = .ok (ProtectFile.release s ⟨some ⟨b, rst⟩, l, none, none,
          some (s.fileName ++ "__" ++ now ++ ".result", c),
          lg ++ [Msg.changedDuringLock, Msg.restored, Msg.savedResults]⟩) := by
    simp [pfExit, ProtectFile.restore, mv_temp_dest, hro, hex, hmm, hdb, hbs,
      Bind.bind, Except.bind]
  refine ⟨_, hrun, ?_, ?_, ?_⟩
  · rw [release_target]
  · rw [release_result]
  · rw [release_temp]

/-- Witness for C5: an externally mutated target (stat 6 vs snapshot 5)
rolls back to the backup and salvages the staged bytes. -/
theorem C5_rollback_salvage_witness :
    ∃ fs1, pfExit ⟨false, true, true, false, true, true, 5, "data.json"⟩ "T" 10 11 none
        ⟨some ⟨[1, 2, 3], 6⟩, true, some [9, 9], some [1, 2, 3], none, []⟩ = .ok fs1 ∧
      fs1.target = some ⟨[1, 2, 3], 11⟩ ∧
      fs1.result = some ((⟨false, true, true, false, true, true, 5, "data.json"⟩ :
        Session).fileName ++ "__" ++ "T" ++ ".result", [9, 9]) ∧
      fs1.temp = none :=
  C5_rollback_salvage _ "T" 10 11 _ [1, 2, 3] [1, 2, 3] [9, 9] 6
    rfl rfl rfl (by decide) rfl rfl rfl rfl

/-- In every write session where the hash check after the commit copy
fails, `mv_temp` runs `restore` (which moves the staging file away) and
then reaches its own `self._temp.unlink()` again: the staging file is
already gone, so `FileNotFoundError` escapes `__exit__` and `release`
is skipped. -/
theorem pfExit_hash_mismatch_raises (s : Session) (now : String) (st rst : Nat)
    (fs : FS) (t b c c2 : Content) (st0 : Nat)
    (hex : s.preExists = true) (hro : s.readonly = false)
    (hch : s.check_hash = true)
    (htgt : fs.target = some ⟨t, st0⟩) (hstat : st0 = s.fstat)
    (hdb : s.do_backup = true) (hbs : s.backupSet = true)
    (hbk : fs.backup = some b) (htemp : fs.temp = some c)
    (hne : c ≠ c2) :
    pfExit s now st rst (some c2) fs = .error .fileNotFound := by
  rcases fs with ⟨tgt, l, tmp, bk, r, lg⟩
  dsimp only at htgt htemp hbk
  subst htgt
  subst htemp
  subst hbk
  simp [pfExit, mv_temp_main, ProtectFile.restore, mv_temp_dest, get_hash,
    hro, hex, hch, hstat, hdb, hbs, hne, Bind.bind, Except.bind]

/-- C3: at a concrete failing input — a write session with hash
verification enabled whose commit copy lands corrupted bytes `[7]`
instead of the staged `[9,9]` — the close step raises
`FileNotFoundError` out of the scope boundary (from the second
`temp.unlink()` after `restore` already removed the staging file)
instead of merely reporting the failure, so `release` never runs.  The
claim describes the intended behaviour; the code contradicts it. -/
theorem C3_hash_mismatch_uncaught :
    pfExit ⟨false, true, true, false, true, true, 5, "data.json"⟩ "T" 10 11
      (some [7]) ⟨some ⟨[1, 2, 3], 5⟩, true, some [9, 9], some [1, 2, 3], none, []⟩
    = .error .fileNotFound := by
  rfl
